import Mathlib

/-!
# BloomFund relayer / MicroInsurance contract — verification development

Shallow embedding of the batch premium-payment core of the BloomFund
repository:

* `contracts/MicroInsurance.sol` — the on-chain contract; its `payBatch`
  entry point is modelled as a function on an explicit contract state
  returning `Option ContractState` (`none` models an EVM revert, i.e. the
  transaction has no effect on chain state).
* `scripts/simple-batch-test.js` (`testBatchPayments`) — the batch
  assembler's per-candidate validation loop and batch totals.
* `scripts/test-relayer.ts` (`testRelayerPayment`) — the per-candidate
  preflight pipeline (chain id, verifying contract, signature shape,
  typed-data recovery, expiry, user field, dry run, nonce, payment timing).
* the comprehensive batch script (`testBatchPayments` of the unnamed
  ts batch test, "part_005") — the full relayer run: readiness filter,
  validation, empty-batch / insufficient-balance aborts, submission and the
  post-confirmation off-chain mirror update.

Cryptographic primitives (keccak256 digests, the `ecrecover` precompile,
`ethers.verifyTypedData`) are external collaborators: they are abstracted
as function parameters of the models (the keccak digest of a struct is
identified with the struct itself, i.e. keccak is treated as ideal /
injective).  All `uint256` arithmetic is modelled on `Nat`: Solidity 0.8
uses checked arithmetic (overflow reverts rather than wraps), and none of
the operations here (`+`, `*`, counters) can realistically approach
`2 ^ 256`, so unbounded `Nat` agrees with the checked semantics on every
input considered.
-/

namespace BloomFund

/-- Pointwise update of a total map, used to model Solidity `mapping`
writes and keyed database updates. -/
def updFn {α : Type} (f : Nat → α) (k : Nat) (v : α) : Nat → α :=
  fun x => if x = k then v else f x

/-! ## Contract model (`contracts/MicroInsurance.sol`) -/

/-- Model of `struct PremiumAuthorization` of `MicroInsurance.sol`.  Addresses are
160-bit values, modelled as `Nat`. -/
structure PremiumAuthorization where
  user : Nat
  tier : Nat
  amount : Nat
  period : Nat
  validUntil : Nat
  nonce : Nat
  deriving DecidableEq, Repr

/-- Model of `struct InsuranceTier` of `MicroInsurance.sol`. -/
structure InsuranceTier where
  monthlyFee : Nat
  payoutAmount : Nat
  active : Bool
  deriving DecidableEq, Repr

/-- Model of `struct UserPolicy` of `MicroInsurance.sol`. -/
structure UserPolicy where
  tier : Nat
  lastPaidAt : Nat
  totalPaid : Nat
  active : Bool
  deriving DecidableEq, Repr

/-- The contract storage relevant to `payBatch`: the `tiers`, `policies`,
`nonces` and `lastPaidAt` mappings (total maps, zero-initialised as in the
EVM), `totalPremiumsCollected`, and the access-control state (`owner`,
`relayers`) consulted by the `onlyRelayer` modifier. -/
structure ContractState where
  owner : Nat
  relayers : Nat → Bool
  tiers : Nat → InsuranceTier
  policies : Nat → UserPolicy
  nonces : Nat → Nat
  lastPaidAt : Nat → Nat
  totalPremiumsCollected : Nat

/-- Model of `verifySignature` composed with `recoverSigner` of `MicroInsurance.sol`.
The EIP-712 struct hash / digest (keccak256) and the `ecrecover` precompile
are abstracted into the parameter `ec` (keccak treated as injective, so the
digest is identified with the authorization).  The concrete `require`s of
`recoverSigner` are kept: the signature must be exactly 65 bytes, and its
recovery byte `v` (raised by 27 when below 27) must be 27 or 28; a failed
`require` reverts, modelled as `none`. -/
def verifySignature (ec : PremiumAuthorization → List Nat → Nat)
    (auth : PremiumAuthorization) (signature : List Nat) : Option Nat :=
  if signature.length = 65 then
    let v0 := signature.getD 64 0
    let v := if v0 < 27 then v0 + 27 else v0
    if v = 27 ∨ v = 28 then some (ec auth signature) else none
  else none

/-- The per-entry validation of `payBatch`'s first pass, as a `Bool`
(mirrors the sequence of `require`s at one loop iteration): active tier,
amount equal to the tier's monthly fee, not expired
(`block.timestamp <= validUntil`), nonce equal to the user's counter,
payment timing (only enforced when `lastPaidAt[user] > 0`), and signature
recovery to the authorizing user. -/
def validateAuthB (ec : PremiumAuthorization → List Nat → Nat)
    (s : ContractState) (ts : Nat)
    (auth : PremiumAuthorization) (sig : List Nat) : Bool :=
  (s.tiers auth.tier).active &&
  (auth.amount == (s.tiers auth.tier).monthlyFee) &&
  (decide (ts ≤ auth.validUntil)) &&
  (s.nonces auth.user == auth.nonce) &&
  (decide (0 < s.lastPaidAt auth.user → s.lastPaidAt auth.user + auth.period ≤ ts)) &&
  (verifySignature ec auth sig == some auth.user)

/-- The same per-entry validation as a proposition. -/
def ValidEntry (ec : PremiumAuthorization → List Nat → Nat)
    (s : ContractState) (ts : Nat)
    (auth : PremiumAuthorization) (sig : List Nat) : Prop :=
  (s.tiers auth.tier).active = true ∧
  auth.amount = (s.tiers auth.tier).monthlyFee ∧
  ts ≤ auth.validUntil ∧
  s.nonces auth.user = auth.nonce ∧
  (0 < s.lastPaidAt auth.user → s.lastPaidAt auth.user + auth.period ≤ ts) ∧
  verifySignature ec auth sig = some auth.user

instance (ec : PremiumAuthorization → List Nat → Nat) (s : ContractState)
    (ts : Nat) (auth : PremiumAuthorization) (sig : List Nat) :
    Decidable (ValidEntry ec s ts auth sig) := by
  unfold ValidEntry; infer_instance

theorem validateAuthB_iff (ec : PremiumAuthorization → List Nat → Nat)
    (s : ContractState) (ts : Nat)
    (auth : PremiumAuthorization) (sig : List Nat) :
    validateAuthB ec s ts auth sig = true ↔ ValidEntry ec s ts auth sig := by
  simp only [validateAuthB, ValidEntry, Bool.and_eq_true, beq_iff_eq,
    decide_eq_true_eq, and_assoc]

/-- One iteration of `payBatch`'s second pass: increment the user's nonce,
set `lastPaidAt[user]` to `block.timestamp`, refresh the policy (tier /
active flag when stale), advance `policy.lastPaidAt` and `policy.totalPaid`,
and accumulate `totalPremiumsCollected`. -/
def applyOne (ts : Nat) (s : ContractState) (auth : PremiumAuthorization) :
    ContractState :=
  let p := s.policies auth.user
  let p1 := if p.tier ≠ auth.tier ∨ p.active = false then
      { p with tier := auth.tier, active := true } else p
  let p2 := { p1 with lastPaidAt := ts, totalPaid := p1.totalPaid + auth.amount }
  { s with
      nonces := updFn s.nonces auth.user (s.nonces auth.user + 1)
      lastPaidAt := updFn s.lastPaidAt auth.user ts
      policies := updFn s.policies auth.user p2
      totalPremiumsCollected := s.totalPremiumsCollected + auth.amount }

/-- The second pass of `payBatch` over the whole batch. -/
def applyAll (s : ContractState) (ts : Nat)
    (auths : List PremiumAuthorization) : ContractState :=
  auths.foldl (applyOne ts) s

/-- Model of `payBatch` of `MicroInsurance.sol`.  `sender` is `msg.sender`,
`msgValue` is `msg.value`, `ts` is `block.timestamp`.  A `require` failure
(including the `onlyRelayer` modifier) reverts the transaction, modelled as
`none`: EVM revert semantics mean no contract storage is modified.  On
success every entry of the batch is applied. -/
def payBatch (ec : PremiumAuthorization → List Nat → Nat)
    (s : ContractState) (sender : Nat)
    (auths : List PremiumAuthorization) (sigs : List (List Nat))
    (msgValue ts : Nat) : Option ContractState :=
  if s.relayers sender || sender == s.owner then
    if auths.length = sigs.length then
      if 0 < auths.length then
        if (auths.zip sigs).all (fun p => validateAuthB ec s ts p.1 p.2) then
          if msgValue = (auths.map (fun a => a.amount)).sum then
            some (applyAll s ts auths)
          else none
        else none
      else none
    else none
  else none

/-- The contract state right after the constructor ran with deployer
`deployer`: the deployer is owner and relayer, tiers 1–3 are created with
the constructor's fees and payouts, and every mapping is otherwise
zero-initialised. -/
def initialState (deployer : Nat) : ContractState where
  owner := deployer
  relayers := fun a => a == deployer
  tiers := fun t =>
    if t = 1 then ⟨50000000000000000, 800, true⟩
    else if t = 2 then ⟨100000000000000000, 1600, true⟩
    else if t = 3 then ⟨150000000000000000, 2400, true⟩
    else ⟨0, 0, false⟩
  policies := fun _ => ⟨0, 0, 0, false⟩
  nonces := fun _ => 0
  lastPaidAt := fun _ => 0
  totalPremiumsCollected := 0

/-- Characterisation of `payBatch`: it succeeds exactly on a relayer-sent,
equal-length, non-empty batch in which every entry validates and the
attached value equals the summed amounts, and then the result is the
two-pass application to every entry. -/
theorem payBatch_some_iff (ec : PremiumAuthorization → List Nat → Nat)
    (s : ContractState) (sender : Nat)
    (auths : List PremiumAuthorization) (sigs : List (List Nat))
    (msgValue ts : Nat) (s' : ContractState) :
    payBatch ec s sender auths sigs msgValue ts = some s' ↔
      ((s.relayers sender = true ∨ sender = s.owner) ∧
       auths.length = sigs.length ∧ 0 < auths.length ∧
       (∀ p ∈ auths.zip sigs, ValidEntry ec s ts p.1 p.2) ∧
       msgValue = (auths.map (fun a => a.amount)).sum ∧
       s' = applyAll s ts auths) := by
  unfold payBatch
  by_cases hrel : (s.relayers sender || sender == s.owner) = true
  · rw [if_pos hrel]
    by_cases hlen : auths.length = sigs.length
    · rw [if_pos hlen]
      by_cases hpos : 0 < auths.length
      · rw [if_pos hpos]
        by_cases hall : (auths.zip sigs).all
            (fun p => validateAuthB ec s ts p.1 p.2) = true
        · rw [if_pos hall]
          by_cases hv : msgValue = (auths.map (fun a => a.amount)).sum
          · rw [if_pos hv]
            rw [List.all_eq_true] at hall
            constructor
            · intro h
              rw [Option.some.injEq] at h
              refine ⟨?_, hlen, hpos, ?_, hv, h.symm⟩
              · have h' := hrel
                simp only [Bool.or_eq_true, beq_iff_eq] at h'
                exact h'
              · intro p hp
                exact (validateAuthB_iff ec s ts p.1 p.2).1 (hall p hp)
            · rintro ⟨-, -, -, -, -, rfl⟩
              rfl
          · rw [if_neg hv]
            refine iff_of_false (by simp) ?_
            rintro ⟨-, -, -, -, hv', -⟩; exact hv hv'
        · rw [if_neg hall]
          refine iff_of_false (by simp) ?_
          rintro ⟨-, -, -, hall', -, -⟩
          refine hall ?_
          rw [List.all_eq_true]
          intro p hp
          exact (validateAuthB_iff ec s ts p.1 p.2).2 (hall' p hp)
      · rw [if_neg hpos]
        refine iff_of_false (by simp) ?_
        rintro ⟨-, -, hpos', -⟩; exact hpos hpos'
    · rw [if_neg hlen]
      refine iff_of_false (by simp) ?_
      rintro ⟨-, hlen', -⟩; exact hlen hlen'
  · rw [if_neg hrel]
    refine iff_of_false (by simp) ?_
    rintro ⟨hrel', -⟩
    refine hrel ?_
    simp only [Bool.or_eq_true, beq_iff_eq]
    exact hrel'

theorem updFn_apply {α : Type} (f : Nat → α) (k : Nat) (v : α) (x : Nat) :
    updFn f k v x = if x = k then v else f x := rfl

/-- In two equal-length lists, every element of the first is paired with
something in their zip. -/
theorem exists_zip_mem {α β : Type} :
    ∀ (l1 : List α) (l2 : List β), l1.length = l2.length →
      ∀ a ∈ l1, ∃ b, (a, b) ∈ l1.zip l2 := by
  intro l1
  induction l1 with
  | nil => intro l2 _ a ha; cases ha
  | cons x xs ih =>
    intro l2 h a ha
    cases l2 with
    | nil => simp at h
    | cons y ys =>
      simp only [List.length_cons] at h
      rcases List.mem_cons.1 ha with rfl | ha'
      · exact ⟨y, by simp⟩
      · obtain ⟨b, hb⟩ := ih ys (by omega) a ha'
        exact ⟨b, by simp [hb]⟩

/-- After `payBatch`'s second pass, each user's `lastPaidAt` is either
untouched or set to the block timestamp, the latter only for users that
own some entry of the batch. -/
theorem applyAll_lastPaidAt (ts : Nat) :
    ∀ (auths : List PremiumAuthorization) (s : ContractState) (u : Nat),
      (applyAll s ts auths).lastPaidAt u = s.lastPaidAt u ∨
      ((applyAll s ts auths).lastPaidAt u = ts ∧ ∃ a ∈ auths, a.user = u) := by
  intro auths
  induction auths with
  | nil => intro s u; exact Or.inl rfl
  | cons a rest ih =>
    intro s u
    have hstep : applyAll s ts (a :: rest) = applyAll (applyOne ts s a) ts rest := rfl
    rw [hstep]
    rcases ih (applyOne ts s a) u with h | ⟨h, a', ha', hu⟩
    · rw [h]
      by_cases hu : u = a.user
      · right
        refine ⟨?_, a, List.mem_cons_self _ _, hu.symm⟩
        show updFn s.lastPaidAt a.user ts u = ts
        simp [updFn, hu]
      · left
        show updFn s.lastPaidAt a.user ts u = s.lastPaidAt u
        simp [updFn, hu]
    · exact Or.inr ⟨h, a', List.mem_cons_of_mem _ ha', hu⟩

/-! ## Relayer models

The repository's relayer scripts work on database rows carrying an EIP-712
typed-data payload (`typed_data_json.value`) plus a signature string.
`ethers.verifyTypedData` is the external signature-recovery collaborator:
it is abstracted as an environment function returning `Option String`
(`none` models a throw on a malformed signature; `some a` the recovered,
possibly checksum-cased, address string). -/

/-- ASCII lowercase of one character: the effect of JS `toLowerCase` on
the characters occurring in hex addresses. -/
def lowerChar (c : Char) : Char :=
  if 'A' ≤ c ∧ c ≤ 'Z' then Char.ofNat (c.toNat + 32) else c

/-- JS `String.prototype.toLowerCase` as used on address strings
(character-wise ASCII lowercasing). -/
def lowerStr (s : String) : String := ⟨s.data.map lowerChar⟩

/-- The `typed_data_json.value` object of a stored authorization (the
EIP-712 message: user address string, tier, amount, period, validUntil,
nonce). -/
structure TypedValue where
  user : String
  tier : Nat
  amount : Nat
  period : Nat
  validUntil : Nat
  nonce : Nat
  deriving DecidableEq, Repr

/-- A database user row joined with its most recent active authorization,
as selected by the batch scripts (`simple-batch-test.js` and the
comprehensive batch test): the fields the validation and mirror-update
code reads. -/
structure DbUser where
  id : Nat
  walletAddress : String
  tier : Nat
  monthlyFee : Nat
  /-- The column `last_paid_at` as unix seconds, `0` when null. -/
  lastPaidAtDb : Nat
  typedValue : TypedValue
  signature : String
  deriving DecidableEq, Repr

/-! ### `simple-batch-test.js` (`testBatchPayments`) assembler -/

/-- Environment of the `simple-batch-test.js` validation loop:
`ethers.verifyTypedData` and the contract's `nonces` read accessor
(keyed by the wallet-address string the script passes it). -/
structure SBEnv where
  recoverTyped : TypedValue → String → Option String
  nonces : String → Nat

/-- One iteration of the `simple-batch-test.js` validation loop: recover
the typed-data signer (a throw is caught and the candidate skipped),
compare it case-insensitively with the row's wallet address, then compare
the authorization nonce with the on-chain nonce.  `true` means the
candidate is pushed onto `validUsers`. -/
def sbValidate (env : SBEnv) (u : DbUser) : Bool :=
  match env.recoverTyped u.typedValue u.signature with
  | none => false
  | some rec =>
      (lowerStr rec == lowerStr u.walletAddress) &&
      (u.typedValue.nonce == env.nonces u.walletAddress)

/-- The `validUsers` list assembled by `simple-batch-test.js`. -/
def sbValidUsers (env : SBEnv) (users : List DbUser) : List DbUser :=
  users.filter (sbValidate env)

/-- The `auths` array submitted by `simple-batch-test.js` (the typed-data
values of the valid users, order-preserving). -/
def sbAuths (env : SBEnv) (users : List DbUser) : List TypedValue :=
  (sbValidUsers env users).map (fun u => u.typedValue)

/-- The `totalAmount` accumulated by `simple-batch-test.js`: the sum of
the authorized amounts of exactly the valid users. -/
def sbTotal (env : SBEnv) (users : List DbUser) : Nat :=
  ((sbValidUsers env users).map (fun u => u.typedValue.amount)).sum

/-! ### `test-relayer.ts` (`testRelayerPayment`) per-candidate pipeline -/

/-- A candidate as read by `test-relayer.ts`: the wallet address of the
row, the typed-data domain fields the preflight inspects, the message
value and the signature string. -/
structure TRCand where
  walletAddress : String
  domainChainId : Nat
  domainVerifyingContract : String
  value : TypedValue
  signature : String

/-- Environment of `test-relayer.ts`: the runtime chain id, the configured
contract address and whether code is deployed there, signature recovery,
the contract's `nonces` and `lastPaidAt` read accessors, the wall clock,
and the outcome of the `payBatch.staticCall` dry run. -/
structure TREnv where
  runtimeChainId : Nat
  contractAddress : String
  hasCode : Bool
  recoverTyped : TypedValue → String → Option String
  nonces : String → Nat
  lastPaidAt : String → Nat
  now : Nat
  dryRunOk : Bool

/-- Outcome of processing one candidate in `test-relayer.ts`: either the
real `payBatch` transaction is sent, or some preflight check threw and the
candidate was skipped (the `catch` block logs and continues). -/
inductive TROutcome where
  | submitted
  | rejected
  deriving DecidableEq, Repr

/-- Model of `ethers.isHexString(sig, 65)`: a `0x`-prefixed string of exactly 130
hex digits. -/
def isHexString65 (s : String) : Bool :=
  s.startsWith "0x" && (s.length == 132) &&
    (s.drop 2).all (fun c =>
      c.isDigit || ('a' ≤ c && c ≤ 'f') || ('A' ≤ c && c ≤ 'F'))

/-- The `test-relayer.ts` per-candidate pipeline, checks in source order:
domain chain id against the runtime chain id; domain verifying contract
against the configured address (case-insensitive) and deployed code
present; 65-byte hex signature; typed-data recovery equal
(case-insensitively) to the row's wallet address; expiry
(`validUntil <= now` throws); the optional `value.user` field against the
wallet address (skipped when the field is empty, modelling JS falsiness);
the `staticCall` dry run; nonce against the on-chain nonce; and the
payment-timing guard `now < lastPaidAt + period`.  Any throw is caught and
the candidate rejected; only a candidate passing everything is submitted. -/
def trProcess (env : TREnv) (c : TRCand) : TROutcome :=
  if c.domainChainId ≠ env.runtimeChainId then .rejected
  else if lowerStr c.domainVerifyingContract ≠ lowerStr env.contractAddress then .rejected
  else if ¬ env.hasCode then .rejected
  else if ¬ isHexString65 c.signature then .rejected
  else
    match env.recoverTyped c.value c.signature with
    | none => .rejected
    | some rec =>
        if lowerStr rec ≠ lowerStr c.walletAddress then .rejected
        else if c.value.validUntil ≤ env.now then .rejected
        else if c.value.user ≠ "" ∧ lowerStr c.value.user ≠ lowerStr c.walletAddress then .rejected
        else if ¬ env.dryRunOk then .rejected
        else if c.value.nonce ≠ env.nonces c.walletAddress then .rejected
        else if env.now < env.lastPaidAt c.walletAddress + c.value.period then .rejected
        else .submitted

/-! ### The comprehensive batch script (unnamed "part_005",
`testBatchPayments`): full run with mirror reconciliation -/

/-- A user row of the off-chain mirror (the `users` table columns the run
touches): `last_paid_at` (`none` when null) and `total_paid`. -/
structure MirrorRow where
  lastPaidAt : Option Nat
  totalPaid : Nat
  deriving DecidableEq, Repr

/-- Environment of one comprehensive-batch-test run: wall clock, relayer
balance, signature recovery, on-chain nonce accessor, whether the
submitted transaction confirms (`false` covers both a failed gas estimate
and a revert — either way the `catch` block is taken), and the wall-clock
time at which the database update runs after confirmation. -/
structure P5Env where
  now : Nat
  balance : Nat
  recoverTyped : TypedValue → String → Option String
  nonces : String → Nat
  txSucceeds : Bool
  confirmTime : Nat

/-- The script's hard-coded `PAYMENT_PERIOD` (30 days in seconds). -/
def PAYMENT_PERIOD : Nat := 30 * 24 * 60 * 60

/-- The readiness filter of the run: `now - lastPaid >= PAYMENT_PERIOD`
(with `lastPaid = 0` for a never-paid user).  In JS the difference can be
negative and the test then fails; `Nat` truncation at `0` gives the same
verdict because `PAYMENT_PERIOD > 0`. -/
def p5Ready (env : P5Env) (users : List DbUser) : List DbUser :=
  users.filter (fun u => PAYMENT_PERIOD ≤ env.now - u.lastPaidAtDb)

/-- The validation loop of the comprehensive batch test, identical in
logic to `sbValidate`: recover the typed-data signer (throw caught →
skipped), case-insensitive address comparison, nonce comparison. -/
def p5Validate (env : P5Env) (u : DbUser) : Bool :=
  match env.recoverTyped u.typedValue u.signature with
  | none => false
  | some rec =>
      (lowerStr rec == lowerStr u.walletAddress) &&
      (u.typedValue.nonce == env.nonces u.walletAddress)

/-- The `batchAuths` assembled by the run (as the ready users that passed
validation; the submitted array holds their typed values). -/
def p5Batch (env : P5Env) (users : List DbUser) : List DbUser :=
  (p5Ready env users).filter (p5Validate env)

/-- The `totalAmount` accumulated by the run. -/
def p5Total (env : P5Env) (users : List DbUser) : Nat :=
  ((p5Batch env users).map (fun u => u.typedValue.amount)).sum

/-- How one run of the comprehensive batch test terminates.  Only
`noBalance` is an error exit (`process.exit(1)`); every other early return
is a clean completion of the script. -/
inductive P5Outcome where
  | noBalance
  | noUsers
  | noneReady
  | noValidPayments
  | insufficientBalance
  | txFailed
  | success
  deriving DecidableEq, Repr

/-- Whether an outcome is an error termination of the run
(`process.exit(1)`), as opposed to a clean return. -/
def P5Outcome.isError : P5Outcome → Bool
  | .noBalance => true
  | _ => false

/-- Result of one run: how it ended, whether the submission flow
(gas estimate / `payBatch` transaction) was entered, and the mirror
afterwards (keyed by user row id). -/
structure P5Result where
  outcome : P5Outcome
  submitted : Bool
  mirror : Nat → MirrorRow

/-- The post-confirmation database update of the run.  Two slips of the
source are modelled faithfully: the loop iterates
`readyUsers.slice(0, batchAuths.length)` — the first `batchAuths.length`
*ready* users, not the users actually in the batch — and it writes
`total_paid: (user.total_paid || 0) + user.monthly_fee`, where
`user.total_paid` is `undefined` because the select list of the query
never included `total_paid`; the written value is therefore exactly
`monthly_fee` (and is the DB fee, not the authorized amount). -/
def p5UpdateMirror (env : P5Env) (usersToUpdate : List DbUser)
    (mirror : Nat → MirrorRow) : Nat → MirrorRow :=
  usersToUpdate.foldl
    (fun m u => updFn m u.id ⟨some env.confirmTime, u.monthlyFee⟩) mirror

/-- One full run of the comprehensive batch test over the fetched user
rows, in source order: the zero-balance exit, the no-users return, the
readiness filter, the validation loop, the empty-batch return, the
insufficient-balance return, then submission; on confirmation the mirror
update runs, on failure the `catch` block leaves the mirror untouched. -/
def p5Run (env : P5Env) (users : List DbUser) (mirror : Nat → MirrorRow) :
    P5Result :=
  if env.balance = 0 then ⟨.noBalance, false, mirror⟩
  else if users.length = 0 then ⟨.noUsers, false, mirror⟩
  else if (p5Ready env users).length = 0 then ⟨.noneReady, false, mirror⟩
  else if (p5Batch env users).length = 0 then ⟨.noValidPayments, false, mirror⟩
  else if env.balance < p5Total env users then ⟨.insufficientBalance, false, mirror⟩
  else if env.txSucceeds then
    ⟨.success, true,
      p5UpdateMirror env ((p5Ready env users).take (p5Batch env users).length) mirror⟩
  else ⟨.txFailed, true, mirror⟩

/-- An outcome other than `.submitted` is `.rejected`. -/
theorem TROutcome.eq_rejected_of_ne {o : TROutcome} (h : o ≠ .submitted) :
    o = .rejected := by
  cases o
  · exact absurd rfl h
  · rfl

/-- Characterisation of one `test-relayer.ts` candidate run: the real
transaction is sent exactly when every preflight check passes. -/
theorem trProcess_submitted_iff (env : TREnv) (c : TRCand) :
    trProcess env c = .submitted ↔
      (c.domainChainId = env.runtimeChainId ∧
       lowerStr c.domainVerifyingContract = lowerStr env.contractAddress ∧
       env.hasCode = true ∧
       isHexString65 c.signature = true ∧
       (∃ r, env.recoverTyped c.value c.signature = some r ∧
          lowerStr r = lowerStr c.walletAddress) ∧
       env.now < c.value.validUntil ∧
       (c.value.user = "" ∨ lowerStr c.value.user = lowerStr c.walletAddress) ∧
       env.dryRunOk = true ∧
       c.value.nonce = env.nonces c.walletAddress ∧
       env.lastPaidAt c.walletAddress + c.value.period ≤ env.now) := by
  unfold trProcess
  split
  next h1 =>
    exact iff_of_false (by simp) (by rintro ⟨h, -⟩; exact h1 h)
  next h1 =>
    split
    next h2 =>
      exact iff_of_false (by simp) (by rintro ⟨-, h, -⟩; exact h2 h)
    next h2 =>
      split
      next h3 =>
        exact iff_of_false (by simp) (by rintro ⟨-, -, h, -⟩; exact h3 h)
      next h3 =>
        split
        next h4 =>
          exact iff_of_false (by simp) (by rintro ⟨-, -, -, h, -⟩; exact h4 h)
        next h4 =>
          split
          next heq =>
            refine iff_of_false (by simp) ?_
            rintro ⟨-, -, -, -, ⟨r, hr, -⟩, -⟩
            rw [heq] at hr
            exact Option.noConfusion hr
          next r heq =>
            split
            next h5 =>
              refine iff_of_false (by simp) ?_
              rintro ⟨-, -, -, -, ⟨r', hr, hlow⟩, -⟩
              rw [heq] at hr
              injection hr with hh
              subst hh
              exact h5 hlow
            next h5 =>
              split
              next h6 =>
                refine iff_of_false (by simp) ?_
                rintro ⟨-, -, -, -, -, h, -⟩
                omega
              next h6 =>
                split
                next h7 =>
                  refine iff_of_false (by simp) ?_
                  rintro ⟨-, -, -, -, -, -, h, -⟩
                  rcases h with h | h
                  · exact h7.1 h
                  · exact h7.2 h
                next h7 =>
                  split
                  next h8 =>
                    refine iff_of_false (by simp) ?_
                    rintro ⟨-, -, -, -, -, -, -, h, -⟩
                    exact h8 h
                  next h8 =>
                    split
                    next h9 =>
                      refine iff_of_false (by simp) ?_
                      rintro ⟨-, -, -, -, -, -, -, -, h, -⟩
                      exact h9 h
                    next h9 =>
                      split
                      next h10 =>
                        refine iff_of_false (by simp) ?_
                        rintro ⟨-, -, -, -, -, -, -, -, -, h⟩
                        omega
                      next h10 =>
                        refine iff_of_true rfl ?_
                        refine ⟨not_ne_iff.mp h1, not_ne_iff.mp h2,
                          not_not.mp h3, not_not.mp h4,
                          ⟨r, heq, not_ne_iff.mp h5⟩, lt_of_not_le h6, ?_,
                          not_not.mp h8, not_ne_iff.mp h9, le_of_not_lt h10⟩
                        rcases not_and_or.mp h7 with h | h
                        · exact Or.inl (not_ne_iff.mp h)
                        · exact Or.inr (not_ne_iff.mp h)

/-- Filtering out copies of an element the predicate rejects anyway does
not change a filter's result. -/
theorem filter_drop_invalid (p : DbUser → Bool) (u : DbUser)
    (hu : p u = false) :
    ∀ users : List DbUser,
      (users.filter (fun x => !(x == u))).filter p = users.filter p := by
  intro users
  induction users with
  | nil => rfl
  | cons x xs ih =>
    by_cases hx : x = u
    · subst hx
      simp [List.filter_cons, hu, ih]
    · have hbeq : (x == u) = false := by
        simpa using hx
      simp [List.filter_cons, hbeq, ih]

/-! ## Concrete scenario data

Closed instantiations used by the witness and counterexample theorems.
The external cryptographic collaborators are instantiated with concrete
oracles (e.g. an ideal recovery function returning the authorized user, or
a fixed recovered address), which is the degree of freedom the models
expose for them. -/

/-- An ideal `ecrecover` oracle: every well-formed signature recovers to
the authorization's user. -/
def ecIdeal : PremiumAuthorization → List Nat → Nat := fun a _ => a.user

/-- A well-formed 65-byte signature whose recovery byte is 27. -/
def sig65 : List Nat := List.replicate 64 0 ++ [27]

/-- A tier-1 authorization for user `7`, amount equal to the constructor's
tier-1 monthly fee, 30-day period, valid until `1700000100`, nonce `0`. -/
def dupAuth : PremiumAuthorization :=
  ⟨7, 1, 50000000000000000, 2592000, 1700000100, 0⟩

/-- A first-payment authorization (user `7`, tier 1) whose period is `100`,
used at block timestamp `5`. -/
def freshAuth : PremiumAuthorization :=
  ⟨7, 1, 50000000000000000, 100, 1000, 0⟩

/-- A tier-1 authorization whose amount `999` differs from the tier-1 fee. -/
def badAmountAuth : PremiumAuthorization :=
  ⟨7, 1, 999, 2592000, 1700000100, 0⟩

/-- A recovery oracle for the script models that returns the typed-data
`user` field (a correctly signed authorization). -/
def recoverIdeal : TypedValue → String → Option String :=
  fun v _ => some v.user

/-- Script environment with ideal recovery and all on-chain nonces `0`. -/
def sbEnvOk : SBEnv := ⟨recoverIdeal, fun _ => 0⟩

/-- Script environment whose on-chain nonce is `5` for every address. -/
def sbEnvNonce5 : SBEnv := ⟨recoverIdeal, fun _ => 5⟩

/-- A correctly signed, nonce-0 candidate whose authorization expired at
time `5` (every other field valid). -/
def expiredUser : DbUser :=
  ⟨1, "0xaa", 1, 10, 0, ⟨"0xaa", 1, 10, 2592000, 5, 0⟩, "sig"⟩

/-- A correctly signed, unexpired, nonce-0 candidate whose authorized
amount `999` differs from the contract's tier-1 monthly fee. -/
def badAmountUser : DbUser :=
  ⟨2, "0xcc", 1, 999, 0, ⟨"0xcc", 1, 999, 2592000, 99999999999, 0⟩, "sig"⟩

/-- A candidate whose authorization nonce `4` will not match an on-chain
nonce of `5`. -/
def staleNonceUser : DbUser :=
  ⟨3, "0xaa", 1, 10, 0, ⟨"0xaa", 1, 10, 2592000, 99999999999, 4⟩, "sig"⟩

/-- A candidate whose signature recovers to a different address. -/
def badSigUser : DbUser :=
  ⟨4, "0xaa", 1, 10, 0, ⟨"0xaa", 1, 10, 2592000, 99999999999, 0⟩, "sig"⟩

/-- Run users for the mirror-misalignment scenario: `userA` fails
signature recovery, `userB` is fully valid. -/
def userA : DbUser :=
  ⟨1, "0xaa", 1, 10, 0, ⟨"0xaa", 1, 10, 2592000, 4000000000, 0⟩, "sa"⟩

/-- See `userA`. -/
def userB : DbUser :=
  ⟨2, "0xbb", 1, 20, 0, ⟨"0xbb", 1, 20, 2592000, 4000000000, 0⟩, "sb"⟩

/-- Run environment for the mirror-misalignment scenario: the signature
`"sb"` recovers to `"0xbb"` (valid for `userB`), anything else recovers to
an unrelated address (invalid for `userA`); the transaction confirms and
the database update runs at time `555`. -/
def p5EnvMis : P5Env :=
  ⟨1000000000, 1000,
   fun _ sg => if sg = "sb" then some "0xbb" else some "0xzz",
   fun _ => 0, true, 555⟩

/-- Run environment with ideal recovery and a balance of `5` wei. -/
def p5EnvLowBal : P5Env :=
  ⟨1000000000, 5, recoverIdeal, fun _ => 0, true, 777⟩

/-- The empty off-chain mirror (all columns null / zero). -/
def mirror0 : Nat → MirrorRow := fun _ => ⟨none, 0⟩

/-- Relayer-preflight environment used by the timing witness: on-chain
`lastPaidAt` is `100` for every address, wall clock `150`. -/
def trEnvTiming : TREnv :=
  ⟨1, "0xc", true, recoverIdeal, fun _ => 0, fun _ => 100, 150, true⟩

/-- Candidate for the timing witness: period `100`, so
`now = 150 < 100 + 100`. -/
def trCandTiming : TRCand :=
  ⟨"0xaa", 1, "0xc", ⟨"0xaa", 1, 10, 100, 99999, 0⟩, "sg"⟩

/-- Relayer-preflight environment for the expiry witness: wall clock
`1000`, everything else permissive. -/
def trEnvExpiry : TREnv :=
  ⟨1, "0xc", true, recoverIdeal, fun _ => 0, fun _ => 0, 1000, true⟩

/-- Candidate for the expiry witness: `validUntil = 5 ≤ now = 1000`. -/
def trCandExpiry : TRCand :=
  ⟨"0xaa", 1, "0xc", ⟨"0xaa", 1, 10, 100, 5, 0⟩, "sg"⟩

/-- Environment whose recovery oracle always returns `"0xBB"`. -/
def sbEnvBadSig : SBEnv := ⟨fun _ _ => some "0xBB", fun _ => 0⟩

/-- Relayer-preflight environment whose recovery oracle always returns
`"0xBB"`. -/
def trEnvBadSig : TREnv :=
  ⟨1, "0xc", true, fun _ _ => some "0xBB", fun _ => 0, fun _ => 0, 1000, true⟩

/-- Candidate for the bad-signature witness (wallet `"0xaa"`). -/
def trCandBadSig : TRCand :=
  ⟨"0xaa", 1, "0xc", ⟨"0xaa", 1, 10, 100, 99999, 0⟩, "sg"⟩

/-! ## Claim theorems -/

/-- C1: `payBatch` is atomic.  A successful call requires equal-length
non-empty arrays, validates every entry (active tier, amount equal to the
tier fee, not expired, matching nonce, payment timing, signature recovery
to the user) and the exact summed payment value, and then applies the
whole batch; if the lengths mismatch, the batch is empty, any single entry
fails validation, or the payment value is wrong, the call reverts
(`none`), which in the EVM model leaves all contract storage unchanged. -/
theorem payBatch_atomic (ec : PremiumAuthorization → List Nat → Nat)
    (s : ContractState) (sender : Nat)
    (auths : List PremiumAuthorization) (sigs : List (List Nat))
    (v ts : Nat) :
    (∀ s', payBatch ec s sender auths sigs v ts = some s' →
        auths.length = sigs.length ∧ 0 < auths.length ∧
        (∀ p ∈ auths.zip sigs, ValidEntry ec s ts p.1 p.2) ∧
        v = (auths.map (fun a => a.amount)).sum ∧
        s' = applyAll s ts auths) ∧
    ((auths.length ≠ sigs.length ∨ auths.length = 0 ∨
        (∃ p ∈ auths.zip sigs, ¬ ValidEntry ec s ts p.1 p.2) ∨
        v ≠ (auths.map (fun a => a.amount)).sum) →
      payBatch ec s sender auths sigs v ts = none) := by
  constructor
  · intro s' h
    obtain ⟨-, hlen, hpos, hall, hv, hs⟩ :=
      (payBatch_some_iff ec s sender auths sigs v ts s').mp h
    exact ⟨hlen, hpos, hall, hv, hs⟩
  · intro hbad
    cases hpb : payBatch ec s sender auths sigs v ts with
    | none => rfl
    | some s' =>
      obtain ⟨-, hlen, hpos, hall, hv, -⟩ :=
        (payBatch_some_iff ec s sender auths sigs v ts s').mp hpb
      rcases hbad with h | h | ⟨p, hp, hnp⟩ | h
      · exact absurd hlen h
      · omega
      · exact absurd (hall p hp) hnp
      · exact absurd hv h

/-- Witness for the atomicity theorem: a singleton batch sent with zero
attached value reverts. -/
theorem payBatch_atomic_witness :
    payBatch ecIdeal (initialState 1) 1 [dupAuth] [sig65] 0 1700000000 = none :=
  (payBatch_atomic ecIdeal (initialState 1) 1 [dupAuth] [sig65]
      0 1700000000).2
    (Or.inr (Or.inr (Or.inr (by decide))))

/-- C2 (failing-input evaluation): the nonce is NOT single-use within one
batch.  Starting from the freshly constructed contract, a batch holding
the same authorization (user 7, nonce 0) twice, both entries correctly
signed and paid for, is accepted: both payments apply, the user's nonce
counter ends at 2 and `totalPaid` at twice the fee — two payments consumed
`(user 7, nonce 0)`, because the first pass validates every entry against
the same pre-state before the second pass increments any counter. -/
theorem payBatch_duplicate_nonce_both_applied :
    (initialState 1).nonces 7 = 0 ∧
    (payBatch ecIdeal (initialState 1) 1 [dupAuth, dupAuth] [sig65, sig65]
        (2 * 50000000000000000) 1700000000).map
      (fun s' => (s'.nonces 7, (s'.policies 7).totalPaid)) =
      some (2, 100000000000000000) := by
  decide

/-- C6 counterexample: the `simple-batch-test.js` assembler performs no
expiry check, so at wall-clock time `1000` a candidate whose authorization
expired at time `5` (signature and nonce valid) is nevertheless placed in
the assembled batch. -/
theorem expired_candidate_assembled_counterexample :
    expiredUser.typedValue.validUntil ≤ 1000 ∧
    expiredUser ∈ sbValidUsers sbEnvOk [expiredUser] := by
  decide

/-- C6 (amended): the per-candidate flow of `test-relayer.ts` rejects any
candidate with `validUntil ≤ now`; and on-chain, `payBatch` reverts any
batch containing an entry with `validUntil < block.timestamp` (the
contract accepts `validUntil = block.timestamp`). -/
theorem expiry_guard_amended :
    (∀ (env : TREnv) (c : TRCand), c.value.validUntil ≤ env.now →
        trProcess env c = .rejected) ∧
    (∀ (ec : PremiumAuthorization → List Nat → Nat) (s : ContractState)
        (sender : Nat) (auths : List PremiumAuthorization)
        (sigs : List (List Nat)) (v ts : Nat),
        (∃ a ∈ auths, a.validUntil < ts) →
        payBatch ec s sender auths sigs v ts = none) := by
  constructor
  · intro env c h
    apply TROutcome.eq_rejected_of_ne
    intro hs
    obtain ⟨-, -, -, -, -, h6, -⟩ := (trProcess_submitted_iff env c).mp hs
    omega
  · intro ec s sender auths sigs v ts
    rintro ⟨a, ha, hlt⟩
    cases hpb : payBatch ec s sender auths sigs v ts with
    | none => rfl
    | some s' =>
      obtain ⟨-, hlen, -, hall, -, -⟩ :=
        (payBatch_some_iff ec s sender auths sigs v ts s').mp hpb
      obtain ⟨b, hb⟩ := exists_zip_mem auths sigs hlen a ha
      have hexp : ts ≤ a.validUntil := (hall _ hb).2.2.1
      omega

/-- Witness for the amended expiry guard: a candidate expired at time `5`
is rejected by the relayer preflight at wall-clock time `1000`. -/
theorem expiry_guard_amended_witness :
    trProcess trEnvExpiry trCandExpiry = .rejected :=
  expiry_guard_amended.1 trEnvExpiry trCandExpiry (by decide)

/-- C7 counterexample: the `simple-batch-test.js` assembler performs no
amount-versus-tier-fee check, so a candidate whose authorized amount `999`
differs from the contract's configured tier-1 monthly fee (signature and
nonce valid) is nevertheless placed in the assembled batch. -/
theorem amount_mismatch_assembled_counterexample :
    badAmountUser.typedValue.amount ≠
      ((initialState 1).tiers badAmountUser.typedValue.tier).monthlyFee ∧
    badAmountUser ∈ sbValidUsers sbEnvOk [badAmountUser] := by
  decide

/-- C7 (amended): the amount check lives on-chain, not in the assembler:
`payBatch` reverts every batch containing an entry whose amount differs
from the tier's currently configured monthly fee, so such an authorization
is never applied. -/
theorem amount_guard_onchain (ec : PremiumAuthorization → List Nat → Nat)
    (s : ContractState) (sender : Nat)
    (auths : List PremiumAuthorization) (sigs : List (List Nat))
    (v ts : Nat) :
    (∃ a ∈ auths, a.amount ≠ (s.tiers a.tier).monthlyFee) →
    payBatch ec s sender auths sigs v ts = none := by
  rintro ⟨a, ha, hne⟩
  cases hpb : payBatch ec s sender auths sigs v ts with
  | none => rfl
  | some s' =>
    obtain ⟨-, hlen, -, hall, -, -⟩ :=
      (payBatch_some_iff ec s sender auths sigs v ts s').mp hpb
    obtain ⟨b, hb⟩ := exists_zip_mem auths sigs hlen a ha
    exact absurd (hall _ hb).2.1 hne

/-- Witness for the on-chain amount guard: a batch holding a wrong-amount
entry reverts. -/
theorem amount_guard_onchain_witness :
    payBatch ecIdeal (initialState 1) 1 [badAmountAuth] [sig65]
      999 1700000000 = none :=
  amount_guard_onchain ecIdeal (initialState 1) 1 [badAmountAuth] [sig65]
    999 1700000000 ⟨badAmountAuth, by decide, by decide⟩

/-- C8 counterexample: the contract's payment-timing guard is skipped for
a first payment (`lastPaidAt[user] = 0`), so at block timestamp `5` a
payment with period `100` is accepted even though
`5 < lastPaidAt + period = 100` — the claim's unconditional
"only accepted when now ≥ lastPaidAt + period" fails on the code. -/
theorem first_payment_timing_counterexample :
    (initialState 1).lastPaidAt 7 = 0 ∧
    (5 : Nat) < (initialState 1).lastPaidAt 7 + freshAuth.period ∧
    (payBatch ecIdeal (initialState 1) 1 [freshAuth] [sig65]
        50000000000000000 5).isSome = true := by
  decide

/-- C8 (amended): the relayer preflight rejects every candidate with
`now < lastPaidAt + period` (unconditionally); on-chain, a successful
batch satisfies the timing guard for every entry whose user has paid
before (`lastPaidAt > 0`), and `lastPaidAt` never decreases for any
user. -/
theorem payment_timing_amended :
    (∀ (env : TREnv) (c : TRCand),
        env.now < env.lastPaidAt c.walletAddress + c.value.period →
        trProcess env c = .rejected) ∧
    (∀ (ec : PremiumAuthorization → List Nat → Nat) (s : ContractState)
        (sender : Nat) (auths : List PremiumAuthorization)
        (sigs : List (List Nat)) (v ts : Nat) (s' : ContractState),
        payBatch ec s sender auths sigs v ts = some s' →
        (∀ a ∈ auths, 0 < s.lastPaidAt a.user →
            s.lastPaidAt a.user + a.period ≤ ts) ∧
        ∀ u, s.lastPaidAt u ≤ s'.lastPaidAt u) := by
  constructor
  · intro env c h
    apply TROutcome.eq_rejected_of_ne
    intro hs
    obtain ⟨-, -, -, -, -, -, -, -, -, h10⟩ :=
      (trProcess_submitted_iff env c).mp hs
    omega
  · intro ec s sender auths sigs v ts s' hpb
    obtain ⟨-, hlen, -, hall, -, hs⟩ :=
      (payBatch_some_iff ec s sender auths sigs v ts s').mp hpb
    have htiming : ∀ a ∈ auths, 0 < s.lastPaidAt a.user →
        s.lastPaidAt a.user + a.period ≤ ts := by
      intro a ha
      obtain ⟨b, hb⟩ := exists_zip_mem auths sigs hlen a ha
      exact (hall _ hb).2.2.2.2.1
    refine ⟨htiming, ?_⟩
    intro u
    subst hs
    rcases applyAll_lastPaidAt ts auths s u with h | ⟨h, a, ha, hau⟩
    · rw [h]
    · rw [h]
      have hta := htiming a ha
      rw [hau] at hta
      by_cases h0 : 0 < s.lastPaidAt u
      · have := hta h0
        omega
      · omega

/-- Witness for the amended timing guard: the relayer preflight rejects a
candidate at wall-clock time `150` when `lastPaidAt = 100` and
`period = 100`. -/
theorem payment_timing_amended_witness :
    trProcess trEnvTiming trCandTiming = .rejected :=
  payment_timing_amended.1 trEnvTiming trCandTiming (by decide)

/-- C4: a candidate whose authorization nonce differs from the user's
current on-chain nonce is excluded from the batch assembled by
`simple-batch-test.js` (and removing every copy of it from the input
leaves the batch total unchanged, so the total never includes its amount),
and likewise from the batch assembled by the comprehensive batch test. -/
theorem nonce_mismatch_excluded :
    (∀ (env : SBEnv) (users : List DbUser) (u : DbUser),
        u.typedValue.nonce ≠ env.nonces u.walletAddress →
        u ∉ sbValidUsers env users ∧
        sbTotal env users =
          sbTotal env (users.filter (fun x => !(x == u)))) ∧
    (∀ (env : P5Env) (users : List DbUser) (u : DbUser),
        u.typedValue.nonce ≠ env.nonces u.walletAddress →
        u ∉ p5Batch env users) := by
  constructor
  · intro env users u h
    have hval : sbValidate env u = false := by
      unfold sbValidate
      cases henv : env.recoverTyped u.typedValue u.signature with
      | none => rfl
      | some r =>
        have hbeq : (u.typedValue.nonce == env.nonces u.walletAddress) = false := by
          simpa using h
        simp [hbeq]
    constructor
    · intro hmem
      have h2 := (List.mem_filter.mp hmem).2
      rw [hval] at h2
      exact Bool.noConfusion h2
    · unfold sbTotal sbValidUsers
      rw [filter_drop_invalid (sbValidate env) u hval users]
  · intro env users u h
    have hval : p5Validate env u = false := by
      unfold p5Validate
      cases henv : env.recoverTyped u.typedValue u.signature with
      | none => rfl
      | some r =>
        have hbeq : (u.typedValue.nonce == env.nonces u.walletAddress) = false := by
          simpa using h
        simp [hbeq]
    intro hmem
    have h2 := (List.mem_filter.mp hmem).2
    rw [hval] at h2
    exact Bool.noConfusion h2

/-- Witness for the nonce exclusion: a candidate with authorization nonce
`4` against an on-chain nonce of `5` is left out of the batch and out of
the total. -/
theorem nonce_mismatch_excluded_witness :
    staleNonceUser ∉ sbValidUsers sbEnvNonce5 [staleNonceUser] ∧
    sbTotal sbEnvNonce5 [staleNonceUser] =
      sbTotal sbEnvNonce5
        ([staleNonceUser].filter (fun x => !(x == staleNonceUser))) :=
  nonce_mismatch_excluded.1 sbEnvNonce5 [staleNonceUser] staleNonceUser
    (by decide)

/-- C5: a candidate whose signature does not recover (under
`ethers.verifyTypedData`, i.e. the typed-data domain and schema) to an
address case-insensitively equal to the owning wallet address is excluded
from the `simple-batch-test.js` batch, and rejected by the
`test-relayer.ts` per-candidate flow, regardless of every other field. -/
theorem signature_mismatch_excluded :
    (∀ (env : SBEnv) (users : List DbUser) (u : DbUser),
        (∀ r, env.recoverTyped u.typedValue u.signature = some r →
            lowerStr r ≠ lowerStr u.walletAddress) →
        u ∉ sbValidUsers env users) ∧
    (∀ (env : TREnv) (c : TRCand),
        (∀ r, env.recoverTyped c.value c.signature = some r →
            lowerStr r ≠ lowerStr c.walletAddress) →
        trProcess env c = .rejected) := by
  constructor
  · intro env users u hrec hmem
    have h2 := (List.mem_filter.mp hmem).2
    unfold sbValidate at h2
    cases henv : env.recoverTyped u.typedValue u.signature with
    | none =>
      rw [henv] at h2
      exact Bool.noConfusion h2
    | some r =>
      rw [henv] at h2
      simp only [Bool.and_eq_true, beq_iff_eq] at h2
      exact hrec r henv h2.1
  · intro env c hrec
    apply TROutcome.eq_rejected_of_ne
    intro hs
    obtain ⟨-, -, -, -, ⟨r, hr, hlow⟩, -⟩ :=
      (trProcess_submitted_iff env c).mp hs
    exact hrec r hr hlow

/-- Witness for the signature exclusion: a recovery oracle returning
`"0xBB"` never matches wallet `"0xaa"`, so the candidate is excluded. -/
theorem signature_mismatch_excluded_witness :
    badSigUser ∉ sbValidUsers sbEnvBadSig [badSigUser] :=
  signature_mismatch_excluded.1 sbEnvBadSig [badSigUser] badSigUser
    (by
      intro r hr
      simp only [sbEnvBadSig] at hr
      injection hr with hh
      subst hh
      decide)

/-- C9: whenever the relayer balance is strictly below the batch total,
the comprehensive batch run terminates before entering the submission
flow — no transaction is sent (the outcome is neither a confirmed
submission nor a failed one) and the off-chain mirror is unchanged. -/
theorem insufficient_balance_aborts (env : P5Env) (users : List DbUser)
    (mirror : Nat → MirrorRow) :
    env.balance < p5Total env users →
    (p5Run env users mirror).submitted = false ∧
    (p5Run env users mirror).mirror = mirror ∧
    (p5Run env users mirror).outcome ≠ .success ∧
    (p5Run env users mirror).outcome ≠ .txFailed := by
  intro h
  unfold p5Run
  by_cases h1 : env.balance = 0
  · rw [if_pos h1]
    exact ⟨rfl, rfl, fun hh => P5Outcome.noConfusion hh,
      fun hh => P5Outcome.noConfusion hh⟩
  · rw [if_neg h1]
    by_cases h2 : users.length = 0
    · rw [if_pos h2]
      exact ⟨rfl, rfl, fun hh => P5Outcome.noConfusion hh,
        fun hh => P5Outcome.noConfusion hh⟩
    · rw [if_neg h2]
      by_cases h3 : (p5Ready env users).length = 0
      · rw [if_pos h3]
        exact ⟨rfl, rfl, fun hh => P5Outcome.noConfusion hh,
          fun hh => P5Outcome.noConfusion hh⟩
      · rw [if_neg h3]
        by_cases h4 : (p5Batch env users).length = 0
        · rw [if_pos h4]
          exact ⟨rfl, rfl, fun hh => P5Outcome.noConfusion hh,
            fun hh => P5Outcome.noConfusion hh⟩
        · rw [if_neg h4, if_pos h]
          exact ⟨rfl, rfl, fun hh => P5Outcome.noConfusion hh,
            fun hh => P5Outcome.noConfusion hh⟩

/-- Witness for the insufficient-balance abort: balance `5` against a
batch total of `10`. -/
theorem insufficient_balance_aborts_witness :
    (p5Run p5EnvLowBal [expiredUser] mirror0).submitted = false ∧
    (p5Run p5EnvLowBal [expiredUser] mirror0).mirror = mirror0 ∧
    (p5Run p5EnvLowBal [expiredUser] mirror0).outcome ≠ .success ∧
    (p5Run p5EnvLowBal [expiredUser] mirror0).outcome ≠ .txFailed :=
  insufficient_balance_aborts p5EnvLowBal [expiredUser] mirror0 (by decide)

/-- C10: when validation leaves zero candidates, the comprehensive batch
run (past its unrelated zero-balance exit) terminates as a clean no-op:
the submission flow is never entered, the mirror is unchanged, and the
termination is a normal return, not an error exit. -/
theorem empty_batch_clean_noop (env : P5Env) (users : List DbUser)
    (mirror : Nat → MirrorRow) :
    env.balance ≠ 0 → p5Batch env users = [] →
    (p5Run env users mirror).submitted = false ∧
    (p5Run env users mirror).mirror = mirror ∧
    (p5Run env users mirror).outcome.isError = false := by
  intro hb hbatch
  unfold p5Run
  rw [if_neg hb]
  by_cases h2 : users.length = 0
  · rw [if_pos h2]
    exact ⟨rfl, rfl, rfl⟩
  · rw [if_neg h2]
    by_cases h3 : (p5Ready env users).length = 0
    · rw [if_pos h3]
      exact ⟨rfl, rfl, rfl⟩
    · rw [if_neg h3]
      have h4 : (p5Batch env users).length = 0 := by rw [hbatch]; rfl
      rw [if_pos h4]
      exact ⟨rfl, rfl, rfl⟩

/-- Witness for the empty-batch no-op: an empty user list. -/
theorem empty_batch_clean_noop_witness :
    (p5Run p5EnvLowBal [] mirror0).submitted = false ∧
    (p5Run p5EnvLowBal [] mirror0).mirror = mirror0 ∧
    (p5Run p5EnvLowBal [] mirror0).outcome.isError = false :=
  empty_batch_clean_noop p5EnvLowBal [] mirror0 (by decide) (by decide)

/-- C3 (failing-input evaluation): the post-confirmation mirror update is
misaligned with the batch.  With two ready users where `userA` fails
signature validation and `userB` is the sole batch member, a confirmed run
updates `userA`'s mirror row (setting its `last_paid_at` and writing
`total_paid := monthly_fee`) and leaves `userB`'s row untouched — because
the update loop iterates `readyUsers.slice(0, batchAuths.length)` instead
of the batch members. -/
theorem mirror_update_misaligned_with_batch :
    p5Batch p5EnvMis [userA, userB] = [userB] ∧
    (p5Run p5EnvMis [userA, userB] mirror0).outcome = .success ∧
    (p5Run p5EnvMis [userA, userB] mirror0).mirror userA.id =
      ⟨some 555, userA.monthlyFee⟩ ∧
    (p5Run p5EnvMis [userA, userB] mirror0).mirror userB.id = ⟨none, 0⟩ := by
  decide

end BloomFund
